import Mathlib

/-!
Shallow embedding of `dl/Util.py` (Data Lab client utilities).

The file embeds three independent pieces of the module:

* the arity-based multimethod dispatch machinery (`MultiMethod`,
  the `multimethod` decorator and the process-wide `method_registry`);
* the token-resolution helpers (`readTokenFile`, `def_token`) over an
  explicit environment recording the file system and OS facts the
  Python code consults;
* the `encode_multipart` form-data encoder.

Python dictionaries are modelled as association lists in insertion
order (Python 3.7+ dict semantics); raising an exception is modelled
with `Except`/an error component, and mutation with explicit state
passing.
-/

/-- Python `dict.get(key)`: the value stored under `key`, if any.
Association lists built by `dictSet` have unique keys, so the first
match is the only match. -/
def dictGet {κ β : Type} [DecidableEq κ] : List (κ × β) → κ → Option β
  | [], _ => none
  | (k, v) :: rest, key => if k = key then some v else dictGet rest key

/-- Python `d[key] = v`: replace the binding if `key` is present,
otherwise append it (insertion order). -/
def dictSet {κ β : Type} [DecidableEq κ] : List (κ × β) → κ → β → List (κ × β)
  | [], key, v => [(key, v)]
  | (k, w) :: rest, key, v =>
    if k = key then (key, v) :: rest else (k, w) :: dictSet rest key v

/-- The two exceptional outcomes of the dispatch machinery.  The Python
code raises `TypeError` at two distinct sites with distinct messages:
`"No MultiMethod match found"` in `MultiMethod.__call__` and
`"duplicate registration"` in `MultiMethod.register`. -/
inductive DispatchError where
  | noMatchingOverload
  | duplicateRegistration
deriving DecidableEq

/-- The type of an overload implementation: a callable invoked as
`function(instance, *args, **kw)` — a receiver, the positional
arguments, and the keyword arguments. -/
def Func (α : Type) : Type := α → List α → List (String × α) → α

/-- `MultiMethod(module, name)`: the per-method dispatcher object with
its `methodmap` dictionary from registry-id strings to callables. -/
structure MultiMethod (α : Type) where
  module : String
  name : String
  methodmap : List (String × Func α)

/-- The registry-id string `module + '.' + name + '.' + str(nargs)`
built both by `MultiMethod.register` and by `MultiMethod.__call__`
(`str` on a natural number is its decimal representation, `Nat.repr`). -/
def mkRegName (module fname : String) (nargs : Nat) : String :=
  module ++ "." ++ fname ++ "." ++ Nat.repr nargs

/-- The lookup `MultiMethod.__call__` performs:
`self.methodmap.get(self.module + '.' + self.name + '.' + str(len(args)))`. -/
def MultiMethod.selected {α : Type} (self : MultiMethod α) (args : List α) :
    Option (Func α) :=
  dictGet self.methodmap (mkRegName self.module self.name args.length)

/-- `MultiMethod.__call__(self, instance, *args, **kw)`: look up the
function under the registry id built from `len(args)`; raise
(`noMatchingOverload`) when absent, else return
`function(instance, *args, **kw)` unchanged. -/
def MultiMethod.call {α : Type} (self : MultiMethod α) (inst : α)
    (args : List α) (kw : List (String × α)) : Except DispatchError α :=
  match self.selected args with
  | none => Except.error DispatchError.noMatchingOverload
  | some function => Except.ok (function inst args kw)

/-- `MultiMethod.register(self, nargs, function, module)`: build
`reg_name = module + '.' + function.__name__ + '.' + str(nargs)`
(`fname` stands for `function.__name__`); raise
(`duplicateRegistration`) when `reg_name in self.methodmap`, else
store `self.methodmap[reg_name] = function`. -/
def MultiMethod.register {α : Type} (self : MultiMethod α) (nargs : Nat)
    (fname : String) (function : Func α) (module : String) :
    Except DispatchError (MultiMethod α) :=
  let reg_name := mkRegName module fname nargs
  if (dictGet self.methodmap reg_name).isSome then
    Except.error DispatchError.duplicateRegistration
  else
    Except.ok { self with methodmap := dictSet self.methodmap reg_name function }

/-- The process-wide `method_registry`: module → (method name →
MultiMethod). -/
def Registry (α : Type) : Type :=
  List (String × List (String × MultiMethod α))

/-- One application of the `multimethod(module, nargs)` decorator to a
function named `fname`: ensure `method_registry[module]` exists, get or
create the `MultiMethod` for `fname` (a fresh one is stored in the
registry before `register` runs), then `mm.register(nargs, function,
module)`.  A raised duplicate-registration error propagates; mutations
already performed persist (a Python `raise` does not roll back).  The
returned pair is the post state and the raised error, if any. -/
def multimethod_apply {α : Type} (st : Registry α) (module : String)
    (nargs : Nat) (fname : String) (function : Func α) :
    Registry α × Option DispatchError :=
  let st1 := if (dictGet st module).isSome then st else dictSet st module []
  let registry := (dictGet st1 module).getD []
  match dictGet registry fname with
  | some mm =>
    match mm.register nargs fname function module with
    | Except.error e => (st1, some e)
    | Except.ok mm2 => (dictSet st1 module (dictSet registry fname mm2), none)
  | none =>
    let mm0 : MultiMethod α := MultiMethod.mk module fname []
    match mm0.register nargs fname function module with
    | Except.error e => (dictSet st1 module (dictSet registry fname mm0), some e)
    | Except.ok mm2 => (dictSet st1 module (dictSet registry fname mm2), none)

/-- A dispatch through the registry: the generated `getter` closure
forwards the call to the `MultiMethod` stored for `(module, fname)`.
`__call__` performs a lookup and an invocation only — no registry or
methodmap write.  When no dispatcher was ever registered for the name
the call cannot resolve, reported as `noMatchingOverload`. -/
def dispatch_step {α : Type} (st : Registry α) (module fname : String)
    (inst : α) (args : List α) (kw : List (String × α)) :
    Registry α × Except DispatchError α :=
  match dictGet st module with
  | none => (st, Except.error DispatchError.noMatchingOverload)
  | some registry =>
    match dictGet registry fname with
    | none => (st, Except.error DispatchError.noMatchingOverload)
    | some mm => (st, mm.call inst args kw)

/-- The operations that touch the registry: a decorator application
(registration) or a dispatched call. -/
inductive Op (α : Type) where
  | reg (module : String) (nargs : Nat) (fname : String) (function : Func α)
  | disp (module fname : String) (inst : α) (args : List α)
      (kw : List (String × α))

/-- The registry state after one operation. -/
def step {α : Type} (st : Registry α) : Op α → Registry α
  | Op.reg module nargs fname function =>
    (multimethod_apply st module nargs fname function).fst
  | Op.disp module fname inst args kw =>
    (dispatch_step st module fname inst args kw).fst

/-- Registry states reachable from the empty `method_registry = {}` by
any sequence of registrations and dispatches. -/
inductive Reachable {α : Type} : Registry α → Prop where
  | empty : Reachable ([] : Registry α)
  | next : ∀ (st : Registry α) (op : Op α), Reachable st → Reachable (step st op)

/-- Register a batch of overloads `(arity, implementation)` for one
method name in order, as the decorator does at class-definition time;
the first duplicate aborts the batch. -/
def registerAll {α : Type} (module fname : String) (mm : MultiMethod α) :
    List (Nat × Func α) → Except DispatchError (MultiMethod α)
  | [] => Except.ok mm
  | (a, f) :: rest =>
    match mm.register a fname f module with
    | Except.error e => Except.error e
    | Except.ok mm2 => registerAll module fname mm2 rest

/-- The anonymous-token sentinel `ANON_TOKEN`. -/
def ANON_TOKEN : String := "anonymous.0.0.anon_access"

/-- The environment `def_token` and `readTokenFile` consult: the
expanded home directory (`os.path.expanduser('~')`), file existence
(`os.path.exists`), the contents of existing files (`open(...).read()`),
the OS login name (`os.getlogin()`), and the values `ConfigParser`
yields for the `login` section of `$HOME/.datalab/dl.conf`
(`config.get('login', 'status')` and `config.get('login', 'user')`). -/
structure Env where
  homeExpand : String
  pathExists : String → Bool
  fileContent : String → String
  osLogin : String
  confStatus : String
  confUser : String

/-- Python `s.split(sep)` for a one-character separator, on the list of
characters: splitting an empty input yields one empty segment, and each
occurrence of the separator starts a new segment. -/
def splitOnChar (sep : Char) : List Char → List (List Char)
  | [] => [[]]
  | c :: cs =>
    match splitOnChar sep cs with
    | [] => [[]]
    | seg :: rest => if c = sep then [] :: seg :: rest else (c :: seg) :: rest

/-- Python `s.strip('\n')`: drop leading and trailing newline
characters. -/
def stripNL (l : List Char) : List Char :=
  ((l.dropWhile (fun c => c = '\n')).reverse.dropWhile (fun c => c = '\n')).reverse

/-- `readTokenFile(tok_file)`: if the file does not exist return
`ANON_TOKEN`, else return the file's first 128 characters stripped of
newlines (`tok_fd.read(128).strip('\n')`). -/
def readTokenFile (env : Env) (tok_file : String) : String :=
  if env.pathExists tok_file = false then ANON_TOKEN
  else (stripNL ((env.fileContent tok_file).data.take 128)).asString

/-- The body `def_token` runs when no token was supplied (`tok is None
or tok == ''`): consult `$HOME/.datalab/dl.conf` when it exists
(returning the logged-in user's token file contents when
`status == 'loggedin'`, else `ANON_TOKEN`); otherwise look for the
current OS user's token file, defaulting to `ANON_TOKEN` when either
the `.datalab` directory or that token file is missing. -/
def def_token_notok (env : Env) (home : String) : String :=
  if env.pathExists (home ++ "/dl.conf") then
    if env.confStatus = "loggedin" then
      readTokenFile env (home ++ "/id_token." ++ env.confUser)
    else ANON_TOKEN
  else
    let tok_file := home ++ "/id_token." ++ env.osLogin
    if env.pathExists home = false ∨ env.pathExists tok_file = false then
      ANON_TOKEN
    else readTokenFile env tok_file

/-- `def_token(tok)`: with no token (`None` or `''`) run the no-token
resolution; with a string of at least 4 dot-separated segments return
it unchanged; with a single bare segment treat it as a user name and
read that user's token file; otherwise return `ANON_TOKEN`. -/
def def_token (env : Env) (tok : Option String) : String :=
  let home := env.homeExpand ++ "/.datalab"
  match tok with
  | none => def_token_notok env home
  | some t =>
    if t = "" then def_token_notok env home
    else if 4 ≤ (splitOnChar '.' t.data).length then t
    else if (splitOnChar '.' t.data).length = 1 then
      readTokenFile env (home ++ "/id_token." ++ t)
    else ANON_TOKEN

/-- One entry of the `files` argument of `encode_multipart`: required
`filename` and `content`, optional `mimetype`. -/
structure FileSpec where
  filename : String
  content : String
  mimetype : Option String

/-- `escape_quote(s)`: `s.replace('"', '\\"')`, character by
character. -/
def escape_quote_chars : List Char → List Char
  | [] => []
  | c :: cs =>
    if c = '"' then '\\' :: '"' :: escape_quote_chars cs
    else c :: escape_quote_chars cs

/-- `escape_quote` on strings. -/
def escape_quote (s : String) : String := (escape_quote_chars s.data).asString

/-- Modelled from the spec: the `mimetypes.guess_type(filename)[0]`
collaborator from the Python standard library, which is not part of
this repository.  Only what the specified scenario exercises is
modelled: a case-insensitive `txt` extension yields `text/plain`;
any other input yields no guess. -/
def mimetypes_guess_type (filename : String) : Option String :=
  let ext := (splitOnChar '.' filename.data).getLastD []
  if (ext.map Char.toLower).asString = "txt" then some "text/plain" else none

/-- Python `'\r\n'.join(lines)`. -/
def joinCRLF : List String → String
  | [] => ""
  | [l] => l
  | l :: ls => l ++ "\r\n" ++ joinCRLF ls

/-- The four lines `encode_multipart` emits per form field. -/
def fieldLines (boundary : String) (p : String × String) : List String :=
  ["--" ++ boundary,
   "Content-Disposition: form-data; name=\"" ++ escape_quote p.fst ++ "\"",
   "",
   p.snd]

/-- The five lines `encode_multipart` emits per file: the declared
`mimetype` if given, else the guessed type, else
`application/octet-stream`. -/
def fileLines (guess : String → Option String) (boundary : String)
    (p : String × FileSpec) : List String :=
  let mimetype := match p.snd.mimetype with
    | some m => m
    | none => (guess p.snd.filename).getD "application/octet-stream"
  ["--" ++ boundary,
   "Content-Disposition: form-data; name=\"" ++ escape_quote p.fst ++
     "\"; filename=\"" ++ escape_quote p.snd.filename ++ "\"",
   "Content-Type: " ++ mimetype,
   "",
   p.snd.content]

/-- `encode_multipart(fields, files, boundary)`: emit the field blocks,
the file blocks, the terminator `--boundary--` and a trailing empty
line; join with CRLF; return the body together with the `Content-Type`
and `Content-Length` headers.  `guess` abstracts `mimetypes.guess_type`
and `randBoundary` the randomly generated boundary used when none is
supplied.  Field values are already strings, so Python's `str(value)`
is the identity here. -/
def encode_multipart (guess : String → Option String)
    (fields : List (String × String)) (files : List (String × FileSpec))
    (boundary : Option String) (randBoundary : String) :
    String × List (String × String) :=
  let b := boundary.getD randBoundary
  let lines := (fields.map (fieldLines b)).flatten ++
    (files.map (fileLines guess b)).flatten ++ ["--" ++ b ++ "--", ""]
  let body := joinCRLF lines
  (body,
   [("Content-Type", "multipart/form-data; boundary=" ++ b),
    ("Content-Length", Nat.repr body.length)])

/-- The key-uniqueness invariant of the registry: every dispatcher
stored anywhere in `method_registry` has duplicate-free registry-id
keys in its `methodmap`, so each (namespace, method name, arity)
triple maps to at most one overload entry. -/
def RegistryInv {α : Type} (st : Registry α) : Prop :=
  ∀ module registry, dictGet st module = some registry →
    ∀ fname mm, dictGet registry fname = some mm →
      (mm.methodmap.map Prod.fst).Nodup

/-- The value of a decimal digit string, most significant digit
first. -/
def digitsVal (l : List Char) : Nat :=
  l.foldl (fun acc c => acc * 10 + (c.toNat - 48)) 0

/-- A sample overload of arity 1 used to instantiate the dispatch
theorems on concrete inputs. -/
def areaFn : Func Nat := fun inst args _ => inst + args.foldl (fun a b => a + b) 0

/-- A sample overload of arity 2. -/
def rectFn : Func Nat := fun inst args _ => inst * args.foldl (fun a b => a * b) 1

/-- A sample overload batch: arity 1 and arity 2 under one name. -/
def ovW : List (Nat × Func Nat) := [(1, areaFn), (2, rectFn)]

/-- The dispatcher obtained by registering `ovW` under module `M` and
name `area`. -/
def mmW : MultiMethod Nat :=
  MultiMethod.mk "M" "area" [("M.area.1", areaFn), ("M.area.2", rectFn)]

/-- The dispatcher holding only the arity-1 overload. -/
def mmA : MultiMethod Nat := MultiMethod.mk "M" "area" [("M.area.1", areaFn)]

/-- The registry state after one registration from empty. -/
def stW : Registry Nat := [("M", [("area", mmA)])]

/-- A sample environment in which no file exists. -/
def envW : Env := Env.mk "/home/u" (fun _ => false) (fun _ => "") "user" "" ""

/-! Helper lemmas: decimal representations are injective, so distinct
arities yield distinct registry-id strings; association-list lookup
and update behave as dictionary operations. -/

theorem toDigitsCore_accum (fuel n : Nat) (ds : List Char) :
    Nat.toDigitsCore 10 fuel n ds = Nat.toDigitsCore 10 fuel n [] ++ ds := by
  induction fuel generalizing n ds with
  | zero => simp [Nat.toDigitsCore]
  | succ fuel ih =>
    simp only [Nat.toDigitsCore]
    by_cases h : n / 10 = 0
    · simp [h]
    · simp only [h, if_false]
      rw [ih (n / 10) (Nat.digitChar (n % 10) :: ds),
        ih (n / 10) [Nat.digitChar (n % 10)], List.append_assoc]
      rfl

theorem digitsVal_append_singleton (l : List Char) (c : Char) :
    digitsVal (l ++ [c]) = digitsVal l * 10 + (c.toNat - 48) := by
  simp [digitsVal, List.foldl_append]

theorem digitChar_val : ∀ m < 10, (Nat.digitChar m).toNat - 48 = m := by decide

theorem digitsVal_toDigitsCore :
    ∀ fuel n, n < fuel → digitsVal (Nat.toDigitsCore 10 fuel n []) = n := by
  intro fuel
  induction fuel with
  | zero => intro n h; exact absurd h (Nat.not_lt_zero n)
  | succ fuel ih =>
    intro n h
    simp only [Nat.toDigitsCore]
    by_cases h0 : n / 10 = 0
    · have hn10 : n < 10 := by omega
      simp only [h0, if_true]
      have : digitsVal [Nat.digitChar (n % 10)] = (Nat.digitChar (n % 10)).toNat - 48 := by
        simp [digitsVal]
      rw [this, digitChar_val (n % 10) (Nat.mod_lt n (by omega))]
      omega
    · simp only [h0, if_false]
      rw [toDigitsCore_accum, digitsVal_append_singleton]
      have hdiv : n / 10 < fuel := by omega
      rw [ih (n / 10) hdiv, digitChar_val (n % 10) (Nat.mod_lt n (by omega))]
      omega

theorem natRepr_injective {m n : Nat} (h : Nat.repr m = Nat.repr n) : m = n := by
  have hd : Nat.toDigits 10 m = Nat.toDigits 10 n := by
    have h2 := congrArg String.data h
    simpa [Nat.repr, List.asString] using h2
  have hm := digitsVal_toDigitsCore (m + 1) m (Nat.lt_succ_self m)
  have hn := digitsVal_toDigitsCore (n + 1) n (Nat.lt_succ_self n)
  unfold Nat.toDigits at hd
  rw [← hm, ← hn, hd]

theorem string_append_cancel_left {s a b : String} (h : s ++ a = s ++ b) :
    a = b := by
  have hd := congrArg String.data h
  simp only [String.data_append] at hd
  cases a
  cases b
  exact congrArg String.mk (List.append_cancel_left hd)

theorem mkRegName_inj {module fname : String} {a b : Nat}
    (h : mkRegName module fname a = mkRegName module fname b) : a = b := by
  unfold mkRegName at h
  exact natRepr_injective (string_append_cancel_left h)

theorem dictGet_dictSet_self {κ β : Type} [DecidableEq κ]
    (d : List (κ × β)) (k : κ) (v : β) : dictGet (dictSet d k v) k = some v := by
  induction d with
  | nil => simp [dictGet, dictSet]
  | cons p rest ih =>
    by_cases h : p.fst = k
    · simp [dictGet, dictSet, h]
    · simp [dictGet, dictSet, h, ih]

theorem dictGet_eq_none {κ β : Type} [DecidableEq κ]
    (d : List (κ × β)) (k : κ) :
    dictGet d k = none ↔ k ∉ d.map Prod.fst := by
  induction d with
  | nil => simp [dictGet]
  | cons p rest ih =>
    obtain ⟨pk, pv⟩ := p
    by_cases h : pk = k
    · simp [dictGet, h]
    · simp only [dictGet, h, if_false, List.map_cons, List.mem_cons, ih]
      constructor
      · intro hn hc
        rcases hc with hc | hc
        · exact h hc.symm
        · exact hn hc
      · intro hn hc
        exact hn (Or.inr hc)

theorem dictSet_absent_append {κ β : Type} [DecidableEq κ]
    (d : List (κ × β)) (k : κ) (v : β) (h : dictGet d k = none) :
    dictSet d k v = d ++ [(k, v)] := by
  induction d with
  | nil => simp [dictSet]
  | cons p rest ih =>
    simp only [dictGet] at h
    by_cases hp : p.fst = k
    · simp [hp] at h
    · simp only [dictSet, hp, if_false]
      simp only [hp, if_false] at h
      simp [ih h]

theorem dictGet_of_mem_of_nodup {κ β : Type} [DecidableEq κ]
    {d : List (κ × β)} {k : κ} {v : β}
    (hmem : (k, v) ∈ d) (hnd : (d.map Prod.fst).Nodup) :
    dictGet d k = some v := by
  induction d with
  | nil => simp at hmem
  | cons p rest ih =>
    simp only [List.map_cons, List.nodup_cons] at hnd
    rcases List.mem_cons.mp hmem with hh | ht
    · simp [dictGet, ← hh]
    · have hk : p.fst ≠ k := by
        intro he
        exact hnd.1 (he ▸ List.mem_map_of_mem Prod.fst ht)
      simp [dictGet, hk, ih ht hnd.2]

theorem dictGet_dictSet {κ β : Type} [DecidableEq κ]
    (d : List (κ × β)) (k k' : κ) (v : β) :
    dictGet (dictSet d k v) k' = if k = k' then some v else dictGet d k' := by
  induction d with
  | nil => simp [dictGet, dictSet]
  | cons p rest ih =>
    obtain ⟨pk, pv⟩ := p
    by_cases h : pk = k
    · subst h
      by_cases h2 : pk = k'
      · simp [dictSet, dictGet, h2]
      · simp [dictSet, dictGet, h2]
    · by_cases h2 : pk = k'
      · subst h2
        have hk : ¬ k = pk := fun he => h he.symm
        simp [dictSet, dictGet, h, hk]
      · simp [dictSet, dictGet, h, h2, ih]

theorem register_ok {α : Type} {mm mm2 : MultiMethod α} {a : Nat}
    {fname module : String} {f : Func α}
    (h : mm.register a fname f module = Except.ok mm2) :
    dictGet mm.methodmap (mkRegName module fname a) = none ∧
    mm2 = { mm with
      methodmap := mm.methodmap ++ [(mkRegName module fname a, f)] } := by
  simp only [MultiMethod.register] at h
  rcases hg : dictGet mm.methodmap (mkRegName module fname a) with _ | v
  · rw [hg] at h
    simp only [Option.isSome_none, Bool.false_eq_true, if_false] at h
    cases h
    exact ⟨rfl, by rw [dictSet_absent_append _ _ _ hg]⟩
  · rw [hg] at h
    simp at h

theorem register_ok_nodup {α : Type} {mm mm2 : MultiMethod α} {a : Nat}
    {fname module : String} {f : Func α}
    (h : mm.register a fname f module = Except.ok mm2)
    (hnd : (mm.methodmap.map Prod.fst).Nodup) :
    (mm2.methodmap.map Prod.fst).Nodup := by
  obtain ⟨hnone, he⟩ := register_ok h
  rw [he]
  simp only [List.map_append, List.map_cons, List.map_nil, List.nodup_append]
  refine ⟨hnd, List.nodup_singleton _, ?_⟩
  intro x hx hx2
  simp at hx2
  rw [hx2] at hx
  exact (dictGet_eq_none _ _).mp hnone hx

theorem registerAll_ok_methodmap {α : Type} {module fname : String} :
    ∀ (l : List (Nat × Func α)) (mm mm2 : MultiMethod α),
      registerAll module fname mm l = Except.ok mm2 →
      mm2.module = mm.module ∧ mm2.name = mm.name ∧
        mm2.methodmap = mm.methodmap ++
          l.map (fun p => (mkRegName module fname p.fst, p.snd)) := by
  intro l
  induction l with
  | nil =>
    intro mm mm2 h
    cases h
    simp
  | cons p rest ih =>
    intro mm mm2 h
    obtain ⟨a, f⟩ := p
    unfold registerAll at h
    rcases hr : mm.register a fname f module with e | mmm
    · rw [hr] at h
      cases h
    · rw [hr] at h
      obtain ⟨hmod, hname, hmap⟩ := ih mmm mm2 h
      obtain ⟨hnone, hmm⟩ := register_ok hr
      rw [hmm] at hmod hname hmap
      refine ⟨hmod, hname, ?_⟩
      rw [hmap]
      simp

theorem registerAll_ok_nodup {α : Type} {module fname : String} :
    ∀ (l : List (Nat × Func α)) (mm mm2 : MultiMethod α),
      registerAll module fname mm l = Except.ok mm2 →
      (mm.methodmap.map Prod.fst).Nodup →
      (mm2.methodmap.map Prod.fst).Nodup := by
  intro l
  induction l with
  | nil =>
    intro mm mm2 h hnd
    cases h
    exact hnd
  | cons p rest ih =>
    intro mm mm2 h hnd
    obtain ⟨a, f⟩ := p
    unfold registerAll at h
    rcases hr : mm.register a fname f module with e | mmm
    · rw [hr] at h
      cases h
    · rw [hr] at h
      exact ih mmm mm2 h (register_ok_nodup hr hnd)

theorem splitOnChar_ne_nil (sep : Char) (l : List Char) :
    splitOnChar sep l ≠ [] := by
  cases l with
  | nil => simp [splitOnChar]
  | cons c cs =>
    simp only [splitOnChar]
    rcases h : splitOnChar sep cs with _ | ⟨seg, rest⟩
    · simp
    · by_cases hc : c = sep <;> simp [hc]

theorem splitOnChar_length (sep : Char) (l : List Char) :
    (splitOnChar sep l).length = l.count sep + 1 := by
  induction l with
  | nil => simp [splitOnChar]
  | cons c cs ih =>
    simp only [splitOnChar]
    rcases h : splitOnChar sep cs with _ | ⟨seg, rest⟩
    · exact absurd h (splitOnChar_ne_nil sep cs)
    · rw [h] at ih
      by_cases hc : c = sep
      · simp only [hc, if_true, List.length_cons, List.count_cons, if_pos rfl,
          beq_self_eq_true] at ih ⊢
        simp at ih ⊢
        omega
      · have hc2 : ¬ (c == sep) = true := by simp [hc]
        simp only [hc, if_false, List.length_cons, List.count_cons] at ih ⊢
        simp [hc2] at ih ⊢
        omega

theorem registryInv_dictSet {α : Type} {st : Registry α} {module : String}
    {registry : List (String × MultiMethod α)} (h : RegistryInv st)
    (hreg : ∀ fname mm, dictGet registry fname = some mm →
      (mm.methodmap.map Prod.fst).Nodup) :
    RegistryInv (dictSet st module registry) := by
  intro m r hm n mm2 hn
  rw [dictGet_dictSet] at hm
  by_cases he : module = m
  · rw [if_pos he] at hm
    cases hm
    exact hreg n mm2 hn
  · rw [if_neg he] at hm
    exact h m r hm n mm2 hn

theorem nodupInner_dictSet {α : Type} {registry : List (String × MultiMethod α)}
    {fname : String} {mm : MultiMethod α}
    (h : ∀ n m, dictGet registry n = some m → (m.methodmap.map Prod.fst).Nodup)
    (hmm : (mm.methodmap.map Prod.fst).Nodup) :
    ∀ n m, dictGet (dictSet registry fname mm) n = some m →
      (m.methodmap.map Prod.fst).Nodup := by
  intro n m hn
  rw [dictGet_dictSet] at hn
  by_cases he : fname = n
  · rw [if_pos he] at hn
    cases hn
    exact hmm
  · rw [if_neg he] at hn
    exact h n m hn

theorem nodupInner_nil {α : Type} :
    ∀ n (m : MultiMethod α), dictGet ([] : List (String × MultiMethod α)) n = some m →
      (m.methodmap.map Prod.fst).Nodup := by
  intro n m hn
  simp [dictGet] at hn

theorem registryInv_apply {α : Type} (st : Registry α) (module : String)
    (nargs : Nat) (fname : String) (function : Func α) (h : RegistryInv st) :
    RegistryInv (multimethod_apply st module nargs fname function).fst := by
  by_cases hs : (dictGet st module).isSome
  · obtain ⟨r, hr⟩ := Option.isSome_iff_exists.mp hs
    have hinner : ∀ n m, dictGet r n = some m → (m.methodmap.map Prod.fst).Nodup :=
      fun n m hn => h module r hr n m hn
    unfold multimethod_apply
    simp only [hr, Option.isSome_some, if_true, Option.getD_some]
    split
    · rename_i mm hg
      split
      · exact h
      · rename_i mm2 hreg2
        exact registryInv_dictSet h
          (nodupInner_dictSet hinner (register_ok_nodup hreg2 (hinner fname mm hg)))
    · rename_i hg
      split
      · exact registryInv_dictSet h (nodupInner_dictSet hinner (by simp))
      · rename_i mm2 hreg2
        exact registryInv_dictSet h
          (nodupInner_dictSet hinner (register_ok_nodup hreg2 (by simp)))
  · have hnone : dictGet st module = none := Option.not_isSome_iff_eq_none.mp hs
    have hInv1 : RegistryInv (dictSet st module ([] : List (String × MultiMethod α))) :=
      registryInv_dictSet h nodupInner_nil
    unfold multimethod_apply
    simp only [hnone, Option.isSome_none, Bool.false_eq_true, if_false,
      dictGet_dictSet_self, Option.getD_some]
    split
    · rename_i mm hg
      exact absurd hg (by simp [dictGet])
    · rename_i hg
      split
      · exact registryInv_dictSet hInv1 (nodupInner_dictSet nodupInner_nil (by simp))
      · rename_i mm2 hreg2
        exact registryInv_dictSet hInv1
          (nodupInner_dictSet nodupInner_nil (register_ok_nodup hreg2 (by simp)))

theorem step_disp_eq {α : Type} (st : Registry α) (module fname : String)
    (inst : α) (args : List α) (kw : List (String × α)) :
    step st (Op.disp module fname inst args kw) = st := by
  show (dispatch_step st module fname inst args kw).fst = st
  unfold dispatch_step
  rcases hg : dictGet st module with _ | registry
  · simp
  · rcases hg2 : dictGet registry fname with _ | mm <;> simp [hg2]

theorem registryInv_reachable {α : Type} (st : Registry α) (h : Reachable st) :
    RegistryInv st := by
  induction h with
  | empty => intro m r hm; simp [dictGet] at hm
  | next st op hst ih =>
    cases op with
    | reg module nargs fname function =>
      exact registryInv_apply st module nargs fname function ih
    | disp module fname inst args kw =>
      rw [step_disp_eq]
      exact ih

/-! The claims. -/

/-- C1: for a dispatcher built by registering a set of overloads
`(arity, implementation)` under one method name in a namespace, calling
dispatch with exactly a registered arity of positional arguments invokes
the callable registered under that arity as
`callable(receiver, *positionalArgs, **keywordArgs)` and returns that
callable's result unchanged, while a positional-argument count that is
not a registered arity fails with `noMatchingOverload`. -/
theorem dispatch_matches_registered_arities {α : Type} (module fname : String)
    (overloads : List (Nat × Func α)) (mm : MultiMethod α)
    (hreg : registerAll module fname (MultiMethod.mk module fname []) overloads =
      Except.ok mm)
    (inst : α) (args : List α) (kw : List (String × α)) :
    (∀ f : Func α, (args.length, f) ∈ overloads →
      mm.call inst args kw = Except.ok (f inst args kw)) ∧
    (args.length ∉ overloads.map Prod.fst →
      mm.call inst args kw = Except.error DispatchError.noMatchingOverload) := by
  obtain ⟨hmod, hname, hmap⟩ := registerAll_ok_methodmap overloads _ mm hreg
  have hnd : (mm.methodmap.map Prod.fst).Nodup :=
    registerAll_ok_nodup overloads _ mm hreg (by simp)
  simp only at hmod hname
  simp only [List.nil_append] at hmap
  constructor
  · intro f hf
    have hmem : (mkRegName module fname args.length, f) ∈ mm.methodmap := by
      rw [hmap]
      exact List.mem_map_of_mem (fun p => (mkRegName module fname p.fst, p.snd)) hf
    have hget := dictGet_of_mem_of_nodup hmem hnd
    unfold MultiMethod.call MultiMethod.selected
    rw [hmod, hname, hget]
  · intro hnotin
    have hget : dictGet mm.methodmap (mkRegName module fname args.length) = none := by
      rw [dictGet_eq_none, hmap]
      intro hc
      rw [List.map_map] at hc
      rcases List.mem_map.mp hc with ⟨p, hp, hkey⟩
      have hpa : p.fst = args.length := mkRegName_inj hkey
      exact hnotin (hpa ▸ List.mem_map_of_mem Prod.fst hp)
    unfold MultiMethod.call MultiMethod.selected
    rw [hmod, hname, hget]

/-- Witness for C1: registering arities 1 and 2 under `M.area` succeeds,
and a call with one positional argument returns the arity-1 overload's
result unchanged. -/
theorem dispatch_matches_registered_arities_witness :
    (registerAll "M" "area" (MultiMethod.mk "M" "area" []) ovW = Except.ok mmW) ∧
    mmW.call 7 [3] [] = Except.ok (areaFn 7 [3] []) :=
  ⟨rfl, (dispatch_matches_registered_arities "M" "area" ovW mmW rfl 7 [3] []).1
    areaFn (List.Mem.head _)⟩

/-- C2: in any dispatcher state, registering an overload under a
(namespace, method name, arity) key that already holds a registered
overload fails with `duplicateRegistration` — whichever registration
came first. -/
theorem duplicate_registration_rejected {α : Type} (mm : MultiMethod α)
    (nargs : Nat) (fname module : String) (g f : Func α)
    (hex : dictGet mm.methodmap (mkRegName module fname nargs) = some f) :
    mm.register nargs fname g module =
      Except.error DispatchError.duplicateRegistration := by
  simp only [MultiMethod.register, hex, Option.isSome_some, if_true]

/-- Witness for C2: `M.area.1` is registered in `mmW`, so registering
arity 1 again is rejected. -/
theorem duplicate_registration_rejected_witness :
    dictGet mmW.methodmap (mkRegName "M" "area" 1) = some areaFn ∧
    mmW.register 1 "area" rectFn "M" =
      Except.error DispatchError.duplicateRegistration :=
  ⟨rfl, duplicate_registration_rejected mmW 1 "area" "M" rectFn areaFn rfl⟩

/-- C3: in every registry state reachable from the empty registry by
register and dispatch operations, each (namespace, method name, arity)
triple maps to at most one overload entry in any stored dispatcher. -/
theorem reachable_registry_unique_overload {α : Type} (st : Registry α)
    (h : Reachable st) (module : String)
    (registry : List (String × MultiMethod α))
    (hm : dictGet st module = some registry) (fname : String)
    (mm : MultiMethod α) (hn : dictGet registry fname = some mm)
    (m n : String) (a : Nat) :
    (mm.methodmap.map Prod.fst).count (mkRegName m n a) ≤ 1 := by
  have hnd := registryInv_reachable st h module registry hm fname mm hn
  exact List.nodup_iff_count_le_one.mp hnd _

/-- Witness for C3: the state after one registration is reachable and
its stored dispatcher holds at most one entry for `M.area.1`. -/
theorem reachable_registry_unique_overload_witness :
    (Reachable stW ∧ dictGet stW "M" = some [("area", mmA)] ∧
      dictGet [("area", mmA)] "area" = some mmA) ∧
    (mmA.methodmap.map Prod.fst).count (mkRegName "M" "area" 1) ≤ 1 := by
  have hreach : Reachable stW := by
    have he : step ([] : Registry Nat) (Op.reg "M" 1 "area" areaFn) = stW := rfl
    exact he ▸ Reachable.next [] (Op.reg "M" 1 "area" areaFn) Reachable.empty
  exact ⟨⟨hreach, rfl, rfl⟩,
    reachable_registry_unique_overload stW hreach "M" [("area", mmA)] rfl
      "area" mmA rfl "M" "area" 1⟩

/-- C4: the overload `__call__` selects is a function of the
positional-argument count alone — two calls with the same number of
positional arguments select the same overload regardless of the
argument values and of any keyword arguments (which do not enter the
lookup at all). -/
theorem dispatch_depends_only_on_arg_count {α : Type} (mm : MultiMethod α)
    (args1 args2 : List α) (h : args1.length = args2.length) :
    mm.selected args1 = mm.selected args2 := by
  unfold MultiMethod.selected
  rw [h]

/-- Witness for C4: two one-argument calls with different argument
values select the same overload of `mmW`. -/
theorem dispatch_depends_only_on_arg_count_witness :
    ([3] : List Nat).length = ([9] : List Nat).length ∧
    mmW.selected [3] = mmW.selected [9] :=
  ⟨rfl, dispatch_depends_only_on_arg_count mmW [3] [9] rfl⟩

/-- C5: a dispatched call — matched or not — returns the registry
unchanged; among the registry operations only registration can modify
it. -/
theorem dispatch_leaves_registry_unchanged {α : Type} (st : Registry α)
    (module fname : String) (inst : α) (args : List α)
    (kw : List (String × α)) :
    (dispatch_step st module fname inst args kw).fst = st ∧
    step st (Op.disp module fname inst args kw) = st :=
  ⟨step_disp_eq st module fname inst args kw,
   step_disp_eq st module fname inst args kw⟩

/-- C6: a token string containing at least 4 dot-separated segments
(at least 3 dots) is returned unchanged by `def_token`, in every
environment. -/
theorem def_token_returns_token_unchanged (env : Env) (t : String)
    (h : 3 ≤ t.data.count '.') : def_token env (some t) = t := by
  have hne : ¬ t = "" := by
    intro he
    rw [he] at h
    exact absurd h (by decide)
  have hlen : 4 ≤ (splitOnChar '.' t.data).length := by
    rw [splitOnChar_length]
    omega
  simp only [def_token]
  rw [if_neg hne, if_pos hlen]

/-- Witness for C6: `def_token` on `"a.b.c.d"` (3 dots) returns it
unchanged. -/
theorem def_token_returns_token_unchanged_witness :
    3 ≤ ("a.b.c.d" : String).data.count '.' ∧
    def_token envW (some "a.b.c.d") = "a.b.c.d" :=
  ⟨by decide, def_token_returns_token_unchanged envW "a.b.c.d" (by decide)⟩

/-- C7: when neither `$HOME/.datalab/dl.conf` nor the current OS user's
token file exists, `def_token(None)` returns the literal anonymous
sentinel. -/
theorem def_token_none_no_files_anonymous (env : Env)
    (hconf : env.pathExists (env.homeExpand ++ "/.datalab" ++ "/dl.conf") = false)
    (htok : env.pathExists
      (env.homeExpand ++ "/.datalab" ++ "/id_token." ++ env.osLogin) = false) :
    def_token env none = "anonymous.0.0.anon_access" := by
  simp only [def_token, def_token_notok]
  rw [hconf]
  simp only [Bool.false_eq_true, if_false]
  rw [if_pos (Or.inr htok)]
  rfl

/-- Witness for C7: in an environment with no files at all,
`def_token(None)` is the anonymous sentinel. -/
theorem def_token_none_no_files_anonymous_witness :
    envW.pathExists (envW.homeExpand ++ "/.datalab" ++ "/dl.conf") = false ∧
    envW.pathExists
      (envW.homeExpand ++ "/.datalab" ++ "/id_token." ++ envW.osLogin) = false ∧
    def_token envW none = "anonymous.0.0.anon_access" :=
  ⟨rfl, rfl, def_token_none_no_files_anonymous envW rfl rfl⟩

set_option maxRecDepth 4096 in
/-- C8: the specified multipart scenario — one field `FIELD=VALUE`, one
file `FILE` named `F.TXT` with content `CONTENT`, boundary `BOUNDARY` —
produces a body of exactly 193 bytes (the body is pure ASCII, so its
UTF-8 byte length and character count agree) and the specified
`Content-Type` and `Content-Length` headers. -/
theorem encode_multipart_scenario_193 :
    (encode_multipart mimetypes_guess_type [("FIELD", "VALUE")]
      [("FILE", FileSpec.mk "F.TXT" "CONTENT" none)] (some "BOUNDARY")
      "").fst.utf8ByteSize = 193 ∧
    (encode_multipart mimetypes_guess_type [("FIELD", "VALUE")]
      [("FILE", FileSpec.mk "F.TXT" "CONTENT" none)] (some "BOUNDARY")
      "").fst.length = 193 ∧
    (encode_multipart mimetypes_guess_type [("FIELD", "VALUE")]
      [("FILE", FileSpec.mk "F.TXT" "CONTENT" none)] (some "BOUNDARY")
      "").snd =
      [("Content-Type", "multipart/form-data; boundary=BOUNDARY"),
       ("Content-Length", "193")] :=
  ⟨rfl, rfl, rfl⟩

/-- C9: an input with exactly 2 or 3 dot-separated segments makes
`def_token` return the anonymous sentinel in every environment — no
token-file lookup can influence the result. -/
theorem def_token_two_or_three_segments_anonymous (env : Env) (t : String)
    (h : (splitOnChar '.' t.data).length = 2 ∨
      (splitOnChar '.' t.data).length = 3) :
    def_token env (some t) = "anonymous.0.0.anon_access" := by
  have hne : ¬ t = "" := by
    intro he
    rw [he] at h
    exact absurd h (by decide)
  have h4 : ¬ 4 ≤ (splitOnChar '.' t.data).length := by omega
  have h1 : ¬ (splitOnChar '.' t.data).length = 1 := by omega
  simp only [def_token]
  rw [if_neg hne, if_neg h4, if_neg h1]
  rfl

/-- Witness for C9: `"a.b"` has 2 segments and resolves to the
anonymous sentinel. -/
theorem def_token_two_or_three_segments_anonymous_witness :
    ((splitOnChar '.' ("a.b" : String).data).length = 2 ∨
      (splitOnChar '.' ("a.b" : String).data).length = 3) ∧
    def_token envW (some "a.b") = "anonymous.0.0.anon_access" :=
  ⟨by decide, def_token_two_or_three_segments_anonymous envW "a.b" (by decide)⟩

/-- C10: `def_token` treats the empty string exactly like `None`: the
guard `tok is None or tok == ''` sends both through the same no-token
resolution path, so the results agree in every environment. -/
theorem def_token_empty_equals_none (env : Env) :
    def_token env (some "") = def_token env none := by
  simp [def_token]
